import Mathlib

/-!
Shallow embedding of artiq/protocols/pipe_ipc.py: duplex parent/child IPC
channels over anonymous pipe pairs (the posix branch of the module) and over
named pipes (the windows branch).  Byte values are modelled as natural
numbers, byte strings as lists of naturals, file-descriptor numbers as
naturals, and address strings as lists of characters.
-/

namespace PipeIpc

/-- Decimal digit character; models the digits produced by Python string
formatting of a non-negative integer.  Always applied to values below 10. -/
def digitChar (d : Nat) : Char :=
  if d = 0 then '0' else if d = 1 then '1' else if d = 2 then '2'
  else if d = 3 then '3' else if d = 4 then '4' else if d = 5 then '5'
  else if d = 6 then '6' else if d = 7 then '7' else if d = 8 then '8'
  else '9'

/-- Accumulator form of decimal formatting: emits the digits of n, most
significant first, in front of acc. -/
def natToDigitsAux (n : Nat) (acc : List Char) : List Char :=
  if n < 10 then digitChar (n % 10) :: acc
  else natToDigitsAux (n / 10) (digitChar (n % 10) :: acc)
termination_by n
decreasing_by exact Nat.div_lt_self (by omega) (by omega)

/-- Number of decimal digits of n. -/
def numDigits (n : Nat) : Nat :=
  if n < 10 then 1 else numDigits (n / 10) + 1
termination_by n
decreasing_by exact Nat.div_lt_self (by omega) (by omega)

/-- Models the decimal rendering of an integer by Python str.format. -/
def natToDigits (n : Nat) : List Char :=
  natToDigitsAux n []

/-- Value of a decimal digit character; any other character has no value. -/
def digitVal (c : Char) : Option Nat :=
  if c = '0' then some 0 else if c = '1' then some 1 else if c = '2' then some 2
  else if c = '3' then some 3 else if c = '4' then some 4 else if c = '5' then some 5
  else if c = '6' then some 6 else if c = '7' then some 7 else if c = '8' then some 8
  else if c = '9' then some 9 else none

/-- Left fold of decimal digits into a value; fails on a non-digit. -/
def parseNatAux : List Char → Nat → Option Nat
  | [], acc => some acc
  | c :: cs, acc =>
    match digitVal c with
    | some d => parseNatAux cs (acc * 10 + d)
    | none => none

/-- Models Python int() applied to a decimal string: the empty string and any
string holding a non-digit character fail. -/
def parseNat : List Char → Option Nat
  | [] => none
  | cs => parseNatAux cs 0

/-- Models str.split(sep, maxsplit=1): the part before the first separator,
and, when a separator occurs, the remainder after it. -/
def splitFirst (sep : Char) : List Char → List Char × Option (List Char)
  | [] => ([], none)
  | c :: cs =>
    if c = sep then ([], some cs)
    else (c :: (splitFirst sep cs).1, (splitFirst sep cs).2)

/-- Failure conditions of child-endpoint address handling. -/
inductive AddrError
  | missingSeparator
  | nonNumeric
  | emptyName
  deriving DecidableEq

/-- Models the posix child-side address parse shared by
AsyncioChildComm.connect and the blocking ChildComm constructor:
rfd, wfd = address.split(",", maxsplit=1) followed by int() on each field.
A missing separator raises at tuple unpacking; a non-numeric field raises
at int(); on success the two descriptor numbers are returned. -/
def parseFdAddress (addr : List Char) : Except AddrError (Nat × Nat) :=
  match splitFirst ',' addr with
  | (_, none) => .error .missingSeparator
  | (l, some r) =>
    match parseNat l, parseNat r with
    | some a, some b => .ok (a, b)
    | _, _ => .error .nonNumeric

/-- AsyncioChildComm.connect (posix): parses the address and wires the two
given descriptor numbers as the reader and writer. -/
def asyncioChildConnect (addr : List Char) : Except AddrError (Nat × Nat) :=
  parseFdAddress addr

/-- ChildComm constructor (posix): parses the address and wraps the two given
descriptor numbers as unbuffered blocking byte streams. -/
def childCommDescriptors (addr : List Char) : Except AddrError (Nat × Nat) :=
  parseFdAddress addr

/-- Modelled from the spec: the OS-level named-pipe connect and open performed
by the windows child endpoints (the event loop pipe connection and the direct
open of the pipe path), which are not part of this module's source — the
source passes the address verbatim.  Per the spec, an empty name fails fast
with the address-malformed condition, while any other name denotes exactly the
named resource it spells; no default is ever substituted. -/
def namedPipeConnect (name : List Char) : Except AddrError (List Char) :=
  if name = [] then .error .emptyName else .ok name

/-- Posix AsyncioParentComm descriptor state: the four descriptors created by
the two os.pipe() calls in the constructor. -/
structure PosixParent where
  c_rfd : Nat
  p_wfd : Nat
  p_rfd : Nat
  c_wfd : Nat
  deriving DecidableEq

/-- AsyncioParentComm constructor (posix): c_rfd, p_wfd = os.pipe() and
p_rfd, c_wfd = os.pipe(), where os.pipe returns (read end, write end). -/
def mkPosixParent (pipe1 pipe2 : Nat × Nat) : PosixParent :=
  { c_rfd := pipe1.1, p_wfd := pipe1.2, p_rfd := pipe2.1, c_wfd := pipe2.2 }

/-- AsyncioParentComm.get_address (posix): the two child-side descriptor
numbers joined by a comma. -/
def get_address (p : PosixParent) : List Char :=
  natToDigits p.c_rfd ++ ',' :: natToDigits p.c_wfd

/-- Primitive effects performed by the posix create_subprocess, in program
order. -/
inductive PAction
  | spawn (passFds : List Nat)
  | closeFd (fd : Nat)
  | mkStreams (rfd wfd : Nat)
  | scheduleExitMonitor
  deriving DecidableEq

/-- AsyncioParentComm.create_subprocess (posix): spawn the child with the two
child-side descriptors passed through, close the parent's copies of both
child-side descriptors, build the parent's reader and writer on p_rfd and
p_wfd, and schedule the exit-monitor task. -/
def create_subprocess (p : PosixParent) : List PAction :=
  [.spawn [p.c_rfd, p.c_wfd], .closeFd p.c_rfd, .closeFd p.c_wfd,
   .mkStreams p.p_rfd p.p_wfd, .scheduleExitMonitor]

/-- Effect of one action on the set of descriptors the parent holds open. -/
def applyFds (fds : List Nat) : PAction → List Nat
  | .closeFd fd => fds.filter (fun x => decide (x ≠ fd))
  | _ => fds

/-- Descriptors the parent holds open after running a list of actions. -/
def fdsAfter (fds : List Nat) (acts : List PAction) : List Nat :=
  acts.foldl applyFds fds

/-- The four descriptors the posix parent holds right after construction. -/
def parentFds (p : PosixParent) : List Nat :=
  [p.c_rfd, p.p_wfd, p.p_rfd, p.c_wfd]

/-- Windows AsyncioParentComm address: the named-pipe path formatted from the
parent's process id and the next value of the process-wide pipe counter. -/
def winPipeName (pid count : Nat) : List Char :=
  "\\\\.\\pipe\\artiq-".data ++ natToDigits pid ++ '-' :: natToDigits count

/-- Windows AsyncioParentComm construction against the module counter: the
itertools counter yields its current value for the address and is left
incremented, never to repeat while the process lives. -/
def winNewParent (pid ctr : Nat) : List Char × Nat :=
  (winPipeName pid ctr, ctr + 1)

/-- Windows AsyncioParentComm state once create_subprocess has started
serving on the pipe name: whether the listening server is still up, whether
the ready event is set, the pre-connection write buffer, the bytes handed to
the connected writer, whether that writer has been closed, and the bytes
available to read from the child. -/
structure WinParentState where
  serverOpen : Bool
  ready : Bool
  write_buffer : List Nat
  transmitted : List Nat
  writerClosed : Bool
  incoming : List Nat
  deriving DecidableEq

/-- State right after create_subprocess: server listening, ready event unset,
empty buffer, nothing transmitted. -/
def initWin : WinParentState :=
  { serverOpen := true, ready := false, write_buffer := [],
    transmitted := [], writerClosed := false, incoming := [] }

/-- Caller-visible outcome of a write call. -/
inductive WriteResult
  | ok
  | brokenPipe
  deriving DecidableEq

/-- AsyncioParentComm.write (windows): transmit directly when the ready event
is set, otherwise append to the in-memory buffer.  Writing through a writer
that was already closed surfaces the platform broken-pipe condition. -/
def write (s : WinParentState) (data : List Nat) : WinParentState × WriteResult :=
  if s.ready then
    if s.writerClosed then (s, .brokenPipe)
    else ({ s with transmitted := s.transmitted ++ data }, .ok)
  else ({ s with write_buffer := s.write_buffer ++ data }, .ok)

/-- The child-connected callback (windows): close the listening server, adopt
the connection's reader and writer, flush the buffered pre-connection writes
in order if there are any, then set the ready event. -/
def child_connected (s : WinParentState) : WinParentState :=
  let s1 := { s with serverOpen := false }
  let s2 :=
    if s1.write_buffer = [] then s1
    else { s1 with transmitted := s1.transmitted ++ s1.write_buffer,
                   write_buffer := [] }
  { s2 with ready := true }

/-- The exit-monitor body (windows): once the child process has exited, close
the listening server if it is still up, and close the writer only when the
ready event is set (a writer exists only after a connection completed). -/
def autoclose (s : WinParentState) : WinParentState :=
  let s1 := if s.serverOpen then { s with serverOpen := false } else s
  if s1.ready then { s1 with writerClosed := true } else s1

/-- AsyncioParentComm.drain (windows): waits on the ready event before
draining the writer; none models remaining suspended on the gate. -/
def drain (s : WinParentState) : Option WinParentState :=
  if s.ready then some s else none

/-- Bytes of the next line, up to and including the newline byte. -/
def takeLine : List Nat → List Nat
  | [] => []
  | b :: bs => if b = 10 then [10] else b :: takeLine bs

/-- Bytes remaining after the next line. -/
def dropLine : List Nat → List Nat
  | [] => []
  | b :: bs => if b = 10 then bs else dropLine bs

/-- AsyncioParentComm.read (windows): waits on the ready event, then returns
at most n of the available bytes. -/
def read (s : WinParentState) (n : Nat) : Option (List Nat × WinParentState) :=
  if s.ready then some (s.incoming.take n, { s with incoming := s.incoming.drop n })
  else none

/-- AsyncioParentComm.readline (windows): waits on the ready event, then
returns up to and including the next newline byte. -/
def readline (s : WinParentState) : Option (List Nat × WinParentState) :=
  if s.ready then some (takeLine s.incoming, { s with incoming := dropLine s.incoming })
  else none

/-- External events driving the windows parent endpoint. -/
inductive WinEvent
  | wr (data : List Nat)
  | childConnected
  | processExit
  deriving DecidableEq

/-- Effect of one event on the windows parent state. -/
def stepF (s : WinParentState) : WinEvent → WinParentState
  | .wr d => (write s d).1
  | .childConnected => child_connected s
  | .processExit => autoclose s

/-- The connection callback can fire only while the server is listening. -/
def enabled (s : WinParentState) : WinEvent → Bool
  | .childConnected => s.serverOpen
  | _ => true

/-- Run a list of events. -/
def runTrace (s : WinParentState) : List WinEvent → WinParentState
  | [] => s
  | e :: t => runTrace (stepF s e) t

/-- A trace is valid when every event is enabled where it fires. -/
def validFrom (s : WinParentState) : List WinEvent → Bool
  | [] => true
  | e :: t => enabled s e && validFrom (stepF s e) t

/-- Number of connection-completed events in a trace. -/
def ccCount : List WinEvent → Nat
  | [] => 0
  | .childConnected :: t => ccCount t + 1
  | _ :: t => ccCount t

/-- Concatenation of the payloads of the writes a trace's run accepted. -/
def acceptedJoin (s : WinParentState) : List WinEvent → List Nat
  | [] => []
  | .wr d :: t =>
    (if (write s d).2 = WriteResult.ok then d else []) ++
      acceptedJoin (stepF s (.wr d)) t
  | e :: t => acceptedJoin (stepF s e) t

/-- Payload a single event contributes to the accepted writes. -/
def acceptedOf (s : WinParentState) : WinEvent → List Nat
  | .wr d => if (write s d).2 = WriteResult.ok then d else []
  | _ => []

/-- Closing the parent's writer object; per the platform stream documentation
a close may be issued repeatedly, later calls being no-ops.  The boolean
records whether the call raised. -/
def writerClose (s : WinParentState) : WinParentState × Bool :=
  ({ s with writerClosed := true }, false)

/-- Failure condition of operations on a closed endpoint. -/
inductive StreamErr
  | channelClosed
  deriving DecidableEq

/-- Child-endpoint stream state: the close flag, the bytes available from the
peer, and the bytes written so far. -/
structure ChildIOState where
  closed : Bool
  incoming : List Nat
  outgoing : List Nat
  deriving DecidableEq

/-- Child endpoint close (AsyncioChildComm.close and ChildComm.close): closes
the underlying stream objects; the platform documents close as idempotent, so
a repeated call changes nothing and the raised flag stays false. -/
def childClose (s : ChildIOState) : ChildIOState × Bool :=
  ({ s with closed := true }, false)

/-- Modelled from the spec: operations on a closed endpoint fail with the
channel-closed condition rather than blocking; the failure itself is produced
by the platform stream layer after close() released the primitive, outside
this module's source. -/
def childRead (s : ChildIOState) (n : Nat) : Except StreamErr (List Nat × ChildIOState) :=
  if s.closed then .error .channelClosed
  else .ok (s.incoming.take n, { s with incoming := s.incoming.drop n })

/-- Write on the child endpoint; fails once the endpoint is closed. -/
def childWrite (s : ChildIOState) (d : List Nat) : Except StreamErr ChildIOState :=
  if s.closed then .error .channelClosed
  else .ok { s with outgoing := s.outgoing ++ d }

/-- Line read on the child endpoint; fails once the endpoint is closed. -/
def childReadline (s : ChildIOState) : Except StreamErr (List Nat × ChildIOState) :=
  if s.closed then .error .channelClosed
  else .ok (takeLine s.incoming, { s with incoming := dropLine s.incoming })

/-- The five operations of the stream contract. -/
inductive StreamOp
  | write
  | drain
  | read
  | readline
  | close
  deriving DecidableEq

/-- Stream methods provided by the shared mixin base class of the posix
parent endpoint and both asynchronous child endpoints. -/
def baseStreamOps : List StreamOp := [.write, .drain, .readline, .read]

/-- Stream methods of the posix AsyncioParentComm: the mixin's only; the
class adds no close method. -/
def posixParentOps : List StreamOp := baseStreamOps

/-- Stream methods of the posix AsyncioChildComm: the mixin's plus close. -/
def posixAsyncChildOps : List StreamOp := baseStreamOps ++ [.close]

/-- Stream methods of the posix blocking ChildComm: read, readline, write and
close; the class defines no drain method. -/
def posixBlockingChildOps : List StreamOp := [.read, .readline, .write, .close]

/-- Stream methods of the windows AsyncioParentComm: write, drain, readline
and read are defined on the class; no close method. -/
def winParentOps : List StreamOp := [.write, .drain, .readline, .read]

/-- Stream methods of the windows AsyncioChildComm: the mixin's plus close. -/
def winAsyncChildOps : List StreamOp := baseStreamOps ++ [.close]

/-- Stream methods of the windows blocking ChildComm: read, readline, write
and close; no drain method. -/
def winBlockingChildOps : List StreamOp := [.read, .readline, .write, .close]

/-- A windows parent state with an established connection, used to exercise
the close paths concretely. -/
def readyWin : WinParentState :=
  { serverOpen := false, ready := true, write_buffer := [],
    transmitted := [], writerClosed := false, incoming := [] }

/-- Every decimal digit character differs from the address separator. -/
theorem digitChar_ne_comma (d : Nat) : digitChar d ≠ ',' := by
  unfold digitChar
  repeat' split
  all_goals decide

/-- Parsing recovers the value of a digit character. -/
theorem digitVal_digitChar (d : Nat) (h : d < 10) : digitVal (digitChar d) = some d := by
  interval_cases d <;> decide

/-- Decimal formatting never yields the empty string. -/
theorem natToDigitsAux_ne_nil (n : Nat) : ∀ acc, natToDigitsAux n acc ≠ [] := by
  induction n using Nat.strong_induction_on with
  | _ n ih =>
    intro acc
    rw [natToDigitsAux]
    split
    · simp
    · exact ih (n / 10) (Nat.div_lt_self (by omega) (by omega)) _

/-- Decimal formatting never emits the address separator. -/
theorem comma_not_mem_natToDigitsAux (n : Nat) :
    ∀ acc, ',' ∉ acc → ',' ∉ natToDigitsAux n acc := by
  induction n using Nat.strong_induction_on with
  | _ n ih =>
    intro acc hacc
    rw [natToDigitsAux]
    split
    · intro hmem
      rcases List.mem_cons.mp hmem with h1 | h1
      · exact digitChar_ne_comma _ h1.symm
      · exact hacc h1
    · refine ih (n / 10) (Nat.div_lt_self (by omega) (by omega)) _ ?_
      intro hmem
      rcases List.mem_cons.mp hmem with h1 | h1
      · exact digitChar_ne_comma _ h1.symm
      · exact hacc h1

/-- Decimal formatting never emits the address separator. -/
theorem comma_not_mem_natToDigits (n : Nat) : ',' ∉ natToDigits n :=
  comma_not_mem_natToDigitsAux n [] (by simp)

/-- Parsing the digits of n emitted in front of acc folds n into the
accumulated value. -/
theorem parseNatAux_natToDigitsAux (n : Nat) :
    ∀ (acc : List Char) (a : Nat),
      parseNatAux (natToDigitsAux n acc) a = parseNatAux acc (a * 10 ^ numDigits n + n) := by
  induction n using Nat.strong_induction_on with
  | _ n ih =>
    intro acc a
    rw [natToDigitsAux, numDigits]
    split
    · rename_i h
      simp only [parseNatAux, digitVal_digitChar (n % 10) (Nat.mod_lt _ (by omega))]
      rw [Nat.mod_eq_of_lt h]
      norm_num
    · rename_i h
      rw [ih (n / 10) (Nat.div_lt_self (by omega) (by omega))]
      simp only [parseNatAux, digitVal_digitChar (n % 10) (Nat.mod_lt _ (by omega))]
      congr 1
      have hdm : 10 * (n / 10) + n % 10 = n := Nat.div_add_mod n 10
      rw [pow_succ]
      calc (a * 10 ^ numDigits (n / 10) + n / 10) * 10 + n % 10
          = a * (10 ^ numDigits (n / 10) * 10) + (10 * (n / 10) + n % 10) := by ring
        _ = a * (10 ^ numDigits (n / 10) * 10) + n := by rw [hdm]

/-- Round trip: parsing the decimal rendering of n yields n. -/
theorem parseNat_natToDigits (n : Nat) : parseNat (natToDigits n) = some n := by
  obtain ⟨c, cs, hcs⟩ : ∃ c cs, natToDigitsAux n [] = c :: cs := by
    rcases h : natToDigitsAux n [] with _ | ⟨c, cs⟩
    · exact absurd h (natToDigitsAux_ne_nil n [])
    · exact ⟨c, cs, rfl⟩
  unfold natToDigits
  rw [hcs]
  have h1 : parseNat (c :: cs) = parseNatAux (c :: cs) 0 := rfl
  rw [h1, ← hcs, parseNatAux_natToDigitsAux]
  simp [parseNatAux]

/-- Decimal rendering is injective. -/
theorem natToDigits_inj {i j : Nat} (h : natToDigits i = natToDigits j) : i = j := by
  have hi := parseNat_natToDigits i
  rw [h, parseNat_natToDigits j] at hi
  simpa using hi.symm

/-- Splitting at the first separator recovers the two separator-free parts. -/
theorem splitFirst_append (l1 l2 : List Char) (h : ',' ∉ l1) :
    splitFirst ',' (l1 ++ ',' :: l2) = (l1, some l2) := by
  induction l1 with
  | nil => simp [splitFirst]
  | cons c cs ih =>
    rw [List.cons_append, splitFirst]
    rw [if_neg (fun hc => h (List.mem_cons.mpr (Or.inl hc.symm)))]
    rw [ih (fun hm => h (List.mem_cons_of_mem c hm))]

/-- The child-side parse inverts the parent-side address formatting. -/
theorem parseFdAddress_roundtrip (a b : Nat) :
    parseFdAddress (natToDigits a ++ ',' :: natToDigits b) = .ok (a, b) := by
  unfold parseFdAddress
  rw [splitFirst_append _ _ (comma_not_mem_natToDigits a)]
  simp only [parseNat_natToDigits]

/-- A closed record form of the connection callback. -/
theorem child_connected_spec (s : WinParentState) :
    child_connected s =
      { s with serverOpen := false, ready := true,
               transmitted := s.transmitted ++ s.write_buffer,
               write_buffer := [] } := by
  rcases s with ⟨so, rd, wb, tx, wc, inc⟩
  by_cases h : wb = ([] : List Nat) <;> simp [child_connected, h]

/-- No step ever clears the ready event. -/
theorem ready_mono_step (s : WinParentState) (e : WinEvent)
    (h : s.ready = true) : (stepF s e).ready = true := by
  rcases s with ⟨so, rd, wb, tx, wc, inc⟩
  cases h
  cases e <;> simp [stepF, write, child_connected, autoclose] <;>
    (try split) <;> simp_all

/-- No step ever reopens the listening server. -/
theorem serverOpen_mono_step (s : WinParentState) (e : WinEvent)
    (h : s.serverOpen = false) : (stepF s e).serverOpen = false := by
  rcases s with ⟨so, rd, wb, tx, wc, inc⟩
  cases h
  cases e <;> simp [stepF, write, child_connected, autoclose] <;>
    (try split) <;> simp_all
  split <;> simp_all

/-- Once the server is down, no valid trace holds a connection event. -/
theorem ccCount_zero_of_server_closed (t : List WinEvent) :
    ∀ s : WinParentState, validFrom s t = true → s.serverOpen = false →
      ccCount t = 0 := by
  induction t with
  | nil => intro s _ _; rfl
  | cons e t ih =>
    intro s hv hs
    rw [validFrom, Bool.and_eq_true] at hv
    cases e with
    | wr d => exact ih _ hv.2 (serverOpen_mono_step s _ hs)
    | childConnected =>
      rw [enabled] at hv
      exact absurd hv.1 (by simp [hs])
    | processExit => exact ih _ hv.2 (serverOpen_mono_step s _ hs)

/-- A valid trace completes the connection at most once. -/
theorem ccCount_le_one (t : List WinEvent) :
    ∀ s : WinParentState, validFrom s t = true → ccCount t ≤ 1 := by
  induction t with
  | nil => intro s _; simp [ccCount]
  | cons e t ih =>
    intro s hv
    rw [validFrom, Bool.and_eq_true] at hv
    cases e with
    | wr d => exact ih _ hv.2
    | processExit => exact ih _ hv.2
    | childConnected =>
      rw [ccCount]
      have h0 : ccCount t = 0 := by
        refine ccCount_zero_of_server_closed t _ hv.2 ?_
        simp [stepF, child_connected_spec]
      omega

/-- One step preserves the gate-buffer invariant and accounts for exactly the
accepted bytes. -/
theorem step_inv_sum (s : WinParentState) (e : WinEvent)
    (hInv : s.ready = true → s.write_buffer = []) :
    ((stepF s e).ready = true → (stepF s e).write_buffer = []) ∧
    (stepF s e).transmitted ++ (stepF s e).write_buffer =
      s.transmitted ++ s.write_buffer ++ acceptedOf s e := by
  cases e with
  | wr d =>
    by_cases hr : s.ready = true
    · by_cases hw : s.writerClosed = true
      · simp [stepF, write, acceptedOf, hr, hw, hInv hr]
      · simp only [Bool.not_eq_true] at hw
        simp [stepF, write, acceptedOf, hr, hw, hInv hr]
    · simp only [Bool.not_eq_true] at hr
      simp [stepF, write, acceptedOf, hr, List.append_assoc]
  | childConnected =>
    simp [stepF, child_connected_spec, acceptedOf]
  | processExit =>
    rcases s with ⟨so, rd, wb, tx, wc, inc⟩
    simp only [stepF, autoclose, acceptedOf] at *
    constructor
    · intro h
      revert h
      (try split) <;> (try split) <;> simp_all
    · (try split) <;> (try split) <;> simp_all

/-- Along any trace the transmitted bytes followed by the still-buffered bytes
are exactly the initially pending bytes followed by the accepted payloads, and
the gate-buffer invariant is preserved. -/
theorem runTrace_inv_sum (t : List WinEvent) :
    ∀ s : WinParentState, (s.ready = true → s.write_buffer = []) →
      ((runTrace s t).ready = true → (runTrace s t).write_buffer = []) ∧
      (runTrace s t).transmitted ++ (runTrace s t).write_buffer =
        s.transmitted ++ s.write_buffer ++ acceptedJoin s t := by
  induction t with
  | nil =>
    intro s hInv
    exact ⟨hInv, by simp [runTrace, acceptedJoin]⟩
  | cons e t ih =>
    intro s hInv
    have hstep := step_inv_sum s e hInv
    have hrec := ih (stepF s e) hstep.1
    have hacc : acceptedJoin s (e :: t) = acceptedOf s e ++ acceptedJoin (stepF s e) t := by
      cases e <;> rfl
    refine ⟨hrec.1, ?_⟩
    rw [runTrace, hrec.2, hstep.2, hacc, List.append_assoc]

/-- Running a trace over an appended list splits into two runs. -/
theorem runTrace_append (t1 t2 : List WinEvent) :
    ∀ s, runTrace s (t1 ++ t2) = runTrace (runTrace s t1) t2 := by
  induction t1 with
  | nil => intro s; rfl
  | cons e t ih =>
    intro s
    rw [List.cons_append, runTrace, runTrace]
    exact ih _

/-- Validity over an appended list splits into two validity checks. -/
theorem validFrom_append (t1 t2 : List WinEvent) :
    ∀ s, validFrom s (t1 ++ t2) =
      (validFrom s t1 && validFrom (runTrace s t1) t2) := by
  induction t1 with
  | nil => intro s; simp [validFrom, runTrace]
  | cons e t ih =>
    intro s
    rw [List.cons_append, validFrom, validFrom, runTrace, ih, Bool.and_assoc]

/-- Writes before the connection all land in the buffer, in order, and each is
an enabled, accepted event. -/
theorem runTrace_writes_not_ready (ds : List (List Nat)) :
    ∀ s : WinParentState, s.ready = false →
      runTrace s (List.map WinEvent.wr ds) =
        { s with write_buffer := s.write_buffer ++ ds.flatten } ∧
      validFrom s (List.map WinEvent.wr ds) = true := by
  induction ds with
  | nil =>
    intro s hs
    constructor
    · cases s; simp [runTrace]
    · rfl
  | cons d ds ih =>
    intro s hs
    have hstep : stepF s (.wr d) = { s with write_buffer := s.write_buffer ++ d } := by
      simp [stepF, write, hs]
    have h2 := ih { s with write_buffer := s.write_buffer ++ d } (by simp [hs])
    constructor
    · rw [List.map_cons, runTrace, hstep, h2.1]
      cases s
      simp_all [List.flatten]
    · rw [List.map_cons, validFrom, hstep]
      simp [enabled, h2.2]

/-- Writes after the connection all go straight to the writer, in order. -/
theorem runTrace_writes_ready (es : List (List Nat)) :
    ∀ s : WinParentState, s.ready = true → s.writerClosed = false →
      runTrace s (List.map WinEvent.wr es) =
        { s with transmitted := s.transmitted ++ es.flatten } ∧
      validFrom s (List.map WinEvent.wr es) = true := by
  induction es with
  | nil =>
    intro s hs _
    constructor
    · cases s; simp [runTrace]
    · rfl
  | cons d es ih =>
    intro s hs hw
    have hstep : stepF s (.wr d) = { s with transmitted := s.transmitted ++ d } := by
      simp [stepF, write, hs, hw]
    have h2 := ih { s with transmitted := s.transmitted ++ d } (by simp [hs]) (by simp [hw])
    constructor
    · rw [List.map_cons, runTrace, hstep, h2.1]
      cases s
      simp_all [List.flatten]
    · rw [List.map_cons, validFrom, hstep]
      simp [enabled, h2.2]

/-- C1: for the named-resource (windows) parent endpoint, every write issued
before the child connects appears to succeed immediately and lands in the
in-memory buffer, and when the connection completes all buffered bytes are
transmitted before any later write, so the child reads exactly the
concatenation of the pre-connection writes in original order, followed by the
later writes. -/
theorem c1_preconnect_writes_flushed_in_order (ds es : List (List Nat)) :
    validFrom initWin (List.map WinEvent.wr ds ++
        WinEvent.childConnected :: List.map WinEvent.wr es) = true ∧
    (runTrace initWin (List.map WinEvent.wr ds ++
        WinEvent.childConnected :: List.map WinEvent.wr es)).transmitted =
      ds.flatten ++ es.flatten ∧
    (∀ (s : WinParentState) (d : List Nat), s.ready = false →
      (write s d).2 = WriteResult.ok ∧
      (write s d).1.write_buffer = s.write_buffer ++ d) := by
  have hpre := runTrace_writes_not_ready ds initWin rfl
  have hmid : stepF (runTrace initWin (List.map WinEvent.wr ds)) WinEvent.childConnected =
      { serverOpen := false, ready := true, write_buffer := [],
        transmitted := ds.flatten, writerClosed := false, incoming := [] } := by
    show child_connected (runTrace initWin (List.map WinEvent.wr ds)) = _
    rw [hpre.1, child_connected_spec]
    simp [initWin]
  have hpost := runTrace_writes_ready es
      { serverOpen := false, ready := true, write_buffer := [],
        transmitted := ds.flatten, writerClosed := false, incoming := [] } rfl rfl
  refine ⟨?_, ?_, ?_⟩
  · rw [validFrom_append, hpre.2, Bool.true_and, validFrom, hmid, hpost.2, hpre.1]
    simp [enabled, initWin]
  · rw [runTrace_append, runTrace, hmid, hpost.1]
  · intro s d hs
    constructor <;> simp [write, hs]

/-- C1 witness: writing the bytes of X and then of Y before the connection
yields exactly XY at the child once the connection completes, and a
pre-connection write reports success. -/
theorem c1_preconnect_writes_witness :
    (runTrace initWin (List.map WinEvent.wr [[88], [89]] ++
        WinEvent.childConnected :: List.map WinEvent.wr [])).transmitted = [88, 89] ∧
    (write initWin [88]).2 = WriteResult.ok := by
  have h := c1_preconnect_writes_flushed_in_order [[88], [89]] []
  refine ⟨?_, (h.2.2 initWin [88] rfl).1⟩
  rw [h.2.1]
  rfl

/-- C2 counterexample: with the child never having connected (gate unset),
running the exit-monitor body leaves the parent's writer unclosed, and a
subsequent write is buffered and reports success instead of failing with the
broken-pipe condition, refuting the claim at this concrete input. -/
theorem c2_exit_monitor_counterexample :
    (autoclose initWin).writerClosed = false ∧
    (write (autoclose initWin) [90]).2 = WriteResult.ok ∧
    (write (autoclose initWin) [90]).1.write_buffer = [90] := by
  decide

/-- C2 amended: on child-process exit the monitor closes the listening server
unconditionally but closes the parent's writer exactly when a connection had
completed (gate set); afterwards a write fails with broken pipe when the
connection had been established, and is appended to the in-memory buffer with
apparent success when it never was. -/
theorem c2_exit_monitor_amended (s : WinParentState) (d : List Nat) :
    (autoclose s).serverOpen = false ∧
    (autoclose s).writerClosed = (s.writerClosed || s.ready) ∧
    write (autoclose s) d =
      (if s.ready then (autoclose s, WriteResult.brokenPipe)
       else ({ autoclose s with write_buffer := s.write_buffer ++ d },
             WriteResult.ok)) := by
  rcases s with ⟨so, rd, wb, tx, wc, inc⟩
  refine ⟨?_, ?_, ?_⟩ <;> cases rd <;> cases so <;> simp [autoclose, write]

/-- C3: malformed addresses fail fast with a distinct address-malformed error
and never fall back silently to a default: a descriptor-pair string with a
missing separator or a non-numeric field fails in both child endpoints, and an
empty named-resource name fails the named-pipe connect, while a non-empty name
connects to exactly the named resource. -/
theorem c3_malformed_address_fails_fast :
    (∀ addr : List Char, (splitFirst ',' addr).2 = none →
      parseFdAddress addr = .error .missingSeparator) ∧
    asyncioChildConnect ['7'] = .error .missingSeparator ∧
    childCommDescriptors ['7'] = .error .missingSeparator ∧
    asyncioChildConnect ['a', ',', '5'] = .error .nonNumeric ∧
    childCommDescriptors ['3', ',', 'x'] = .error .nonNumeric ∧
    namedPipeConnect [] = .error .emptyName ∧
    (∀ name : List Char, name ≠ [] → namedPipeConnect name = .ok name) := by
  refine ⟨?_, rfl, rfl, rfl, rfl, rfl, ?_⟩
  · intro addr h
    unfold parseFdAddress
    rcases hsp : splitFirst ',' addr with ⟨l, r⟩
    rw [hsp] at h
    simp only at h
    subst h
    rfl
  · intro name h
    unfold namedPipeConnect
    rw [if_neg h]

/-- C3 witness: the separator-free address fails at the parse, and a non-empty
named-resource name connects to that very name. -/
theorem c3_malformed_address_witness :
    parseFdAddress ['7'] = Except.error AddrError.missingSeparator ∧
    namedPipeConnect ['a'] = Except.ok ['a'] :=
  ⟨c3_malformed_address_fails_fast.1 ['7'] rfl,
   c3_malformed_address_fails_fast.2.2.2.2.2.2 ['a'] (by decide)⟩

/-- C4: the posix create_subprocess closes the parent's copies of both
child-side descriptors immediately after the spawn and before the parent
builds its reader and writer, leaving the parent holding exactly its own two
endpoint descriptors. -/
theorem c4_child_fds_closed_after_spawn (p : PosixParent)
    (h1 : p.p_wfd ≠ p.c_rfd) (h2 : p.p_rfd ≠ p.c_rfd)
    (h3 : p.p_wfd ≠ p.c_wfd) (h4 : p.p_rfd ≠ p.c_wfd)
    (h5 : p.c_wfd ≠ p.c_rfd) :
    create_subprocess p =
      [PAction.spawn [p.c_rfd, p.c_wfd], PAction.closeFd p.c_rfd,
       PAction.closeFd p.c_wfd, PAction.mkStreams p.p_rfd p.p_wfd,
       PAction.scheduleExitMonitor] ∧
    fdsAfter (parentFds p) (List.take 3 (create_subprocess p)) =
      [p.p_wfd, p.p_rfd] := by
  refine ⟨rfl, ?_⟩
  simp [create_subprocess, fdsAfter, parentFds, applyFds, List.filter,
    h1, h2, h3, h4, h5]

/-- C4 witness: with pipes made of descriptors 3, 4 and 5, 6, after the spawn
and both closes the parent holds exactly its write end 4 and read end 5. -/
theorem c4_child_fds_closed_witness :
    fdsAfter (parentFds (mkPosixParent (3, 4) (5, 6)))
      (List.take 3 (create_subprocess (mkPosixParent (3, 4) (5, 6)))) = [4, 5] :=
  (c4_child_fds_closed_after_spawn (mkPosixParent (3, 4) (5, 6))
    (by decide) (by decide) (by decide) (by decide) (by decide)).2

/-- C5: closing an already-closed stream is a no-op and never an error, both
for a repeated close on a child endpoint and for the parent writer that the
background exit monitor and a foreground close may each close. -/
theorem c5_double_close_noop (s : WinParentState) (c : ChildIOState)
    (h : s.ready = true) :
    childClose (childClose c).1 = ((childClose c).1, false) ∧
    writerClose (writerClose s).1 = ((writerClose s).1, false) ∧
    writerClose (autoclose s) = (autoclose s, false) := by
  refine ⟨rfl, rfl, ?_⟩
  rcases s with ⟨so, rd, wb, tx, wc, inc⟩
  cases h
  cases so <;> simp [autoclose, writerClose]

/-- C5 witness: after the exit monitor closed the connected parent's writer, a
foreground close of the same writer changes nothing and raises nothing. -/
theorem c5_double_close_witness :
    writerClose (autoclose readyWin) = (autoclose readyWin, false) :=
  (c5_double_close_noop readyWin ⟨false, [], []⟩ rfl).2.2

/-- C6: the descriptor-pair address is the child's read and write descriptor
numbers joined by a comma, the child-side parse round-trips it in both child
endpoints, and the wiring pairs child-read with the pipe whose write end is
the parent's writer and child-write with the pipe whose read end is the
parent's reader. -/
theorem c6_address_roundtrip_wiring (pipe1 pipe2 : Nat × Nat) :
    parseFdAddress (get_address (mkPosixParent pipe1 pipe2)) =
      .ok ((mkPosixParent pipe1 pipe2).c_rfd, (mkPosixParent pipe1 pipe2).c_wfd) ∧
    asyncioChildConnect (get_address (mkPosixParent pipe1 pipe2)) =
      .ok (pipe1.1, pipe2.2) ∧
    childCommDescriptors (get_address (mkPosixParent pipe1 pipe2)) =
      .ok (pipe1.1, pipe2.2) ∧
    (mkPosixParent pipe1 pipe2).c_rfd = pipe1.1 ∧
    (mkPosixParent pipe1 pipe2).p_wfd = pipe1.2 ∧
    (mkPosixParent pipe1 pipe2).p_rfd = pipe2.1 ∧
    (mkPosixParent pipe1 pipe2).c_wfd = pipe2.2 := by
  refine ⟨?_, ?_, ?_, rfl, rfl, rfl, rfl⟩ <;> exact parseFdAddress_roundtrip _ _

/-- C7: named-resource addresses from one parent process never collide: the
pipe name embeds the process-wide counter injectively, and every creation
advances the counter, which is never reused. -/
theorem c7_distinct_addresses (pid : Nat) :
    (∀ i j : Nat, winPipeName pid i = winPipeName pid j → i = j) ∧
    (∀ ctr : Nat, (winNewParent pid ctr).2 = ctr + 1) ∧
    (∀ c0 i j : Nat, i ≠ j →
      (winNewParent pid (c0 + i)).1 ≠ (winNewParent pid (c0 + j)).1) := by
  have hinj : ∀ i j : Nat, winPipeName pid i = winPipeName pid j → i = j := by
    intro i j h
    unfold winPipeName at h
    have h1 := List.append_cancel_left h
    injection h1 with _ h3
    exact natToDigits_inj h3
  refine ⟨hinj, fun ctr => rfl, ?_⟩
  intro c0 i j hij hcontra
  exact hij (Nat.add_left_cancel (hinj _ _ hcontra))

/-- C7 witness: the first two channels created by process 42 get distinct
named-pipe addresses. -/
theorem c7_distinct_addresses_witness :
    (winNewParent 42 (0 + 0)).1 ≠ (winNewParent 42 (0 + 1)).1 :=
  (c7_distinct_addresses 42).2.2 0 0 1 (by decide)

/-- C8: the readiness gate is signaled exactly once per channel, by the same
callback that flushes the buffered pre-connection writes; once set it stays
set under every step; write consults it to choose between direct transmission
and enqueueing; and drain, read and readline all wait on it before touching
the underlying stream. -/
theorem c8_ready_gate_once_and_guards :
    (∀ (s : WinParentState) (e : WinEvent), s.ready = true → (stepF s e).ready = true) ∧
    (∀ (s : WinParentState) (e : WinEvent), (stepF s e).ready = true →
      s.ready = true ∨ e = WinEvent.childConnected) ∧
    (∀ t : List WinEvent, validFrom initWin t = true → ccCount t ≤ 1) ∧
    (∀ s : WinParentState, (child_connected s).ready = true ∧
      (child_connected s).write_buffer = [] ∧
      (child_connected s).transmitted = s.transmitted ++ s.write_buffer) ∧
    (∀ (s : WinParentState) (d : List Nat), s.ready = false →
      write s d = ({ s with write_buffer := s.write_buffer ++ d }, WriteResult.ok)) ∧
    (∀ (s : WinParentState) (d : List Nat), s.ready = true → s.writerClosed = false →
      write s d = ({ s with transmitted := s.transmitted ++ d }, WriteResult.ok)) ∧
    (∀ (s : WinParentState) (n : Nat), s.ready = false →
      drain s = none ∧ read s n = none ∧ readline s = none) ∧
    (∀ s : WinParentState, s.ready = true → drain s = some s) := by
  refine ⟨ready_mono_step, ?_, fun t hv => ccCount_le_one t initWin hv,
    ?_, ?_, ?_, ?_, ?_⟩
  · intro s e h
    cases e with
    | childConnected => exact Or.inr rfl
    | wr d =>
      refine Or.inl ?_
      rcases s with ⟨so, rd, wb, tx, wc, inc⟩
      cases rd
      · simp [stepF, write] at h
      · rfl
    | processExit =>
      refine Or.inl ?_
      rcases s with ⟨so, rd, wb, tx, wc, inc⟩
      cases rd
      · cases so <;> simp [stepF, autoclose] at h
      · rfl
  · intro s
    rw [child_connected_spec]
    exact ⟨rfl, rfl, rfl⟩
  · intro s d h
    simp [write, h]
  · intro s d h1 h2
    simp [write, h1, h2]
  · intro s n h
    refine ⟨?_, ?_, ?_⟩ <;> simp [drain, read, readline, h]
  · intro s h
    simp [drain, h]

/-- C8 witness: a step preserves an already-set gate; a one-connection trace
stays within the once-only bound; drain suspends before the gate is set and
proceeds after. -/
theorem c8_ready_gate_witness :
    (stepF readyWin WinEvent.processExit).ready = true ∧
    ccCount [WinEvent.childConnected] ≤ 1 ∧
    drain initWin = none ∧ drain readyWin = some readyWin :=
  ⟨c8_ready_gate_once_and_guards.1 readyWin WinEvent.processExit rfl,
   c8_ready_gate_once_and_guards.2.2.1 [WinEvent.childConnected] rfl,
   (c8_ready_gate_once_and_guards.2.2.2.2.2.2.1 initWin 0 rfl).1,
   c8_ready_gate_once_and_guards.2.2.2.2.2.2.2 readyWin rfl⟩

/-- C9 counterexample: the parent endpoints expose no close operation and the
blocking child endpoints expose no drain operation, refuting the claim that
every endpoint exposes the full five-operation stream contract. -/
theorem c9_stream_contract_counterexample :
    StreamOp.close ∉ posixParentOps ∧ StreamOp.close ∉ winParentOps ∧
    StreamOp.drain ∉ posixBlockingChildOps ∧
    StreamOp.drain ∉ winBlockingChildOps := by
  decide

/-- C9 amended: the asynchronous child endpoints expose all five stream
operations; the parent endpoints expose write, drain, readline and read but no
close; the blocking child endpoints expose read, readline, write and close but
no drain; and on child endpoints, after close the operations fail with the
channel-closed condition rather than blocking. -/
theorem c9_stream_contract_amended :
    (posixParentOps = [StreamOp.write, StreamOp.drain, StreamOp.readline, StreamOp.read] ∧
     winParentOps = [StreamOp.write, StreamOp.drain, StreamOp.readline, StreamOp.read] ∧
     posixAsyncChildOps =
       [StreamOp.write, StreamOp.drain, StreamOp.readline, StreamOp.read, StreamOp.close] ∧
     winAsyncChildOps =
       [StreamOp.write, StreamOp.drain, StreamOp.readline, StreamOp.read, StreamOp.close] ∧
     posixBlockingChildOps = [StreamOp.read, StreamOp.readline, StreamOp.write, StreamOp.close] ∧
     winBlockingChildOps = [StreamOp.read, StreamOp.readline, StreamOp.write, StreamOp.close]) ∧
    (∀ (c : ChildIOState) (n : Nat) (d : List Nat),
      childRead (childClose c).1 n = .error .channelClosed ∧
      childWrite (childClose c).1 d = .error .channelClosed ∧
      childReadline (childClose c).1 = .error .channelClosed) := by
  refine ⟨by decide, ?_⟩
  intro c n d
  refine ⟨?_, ?_, ?_⟩ <;> simp [childClose, childRead, childWrite, childReadline]

/-- C10: in every state the windows parent can reach, a set gate implies an
empty write buffer; the transmitted bytes followed by the still-buffered bytes
are exactly the accepted write payloads in order, so no byte is duplicated or
stranded; and once the gate is set, writes bypass the buffer entirely. -/
theorem c10_gate_implies_empty_buffer (t : List WinEvent) :
    ((runTrace initWin t).ready = true → (runTrace initWin t).write_buffer = []) ∧
    (runTrace initWin t).transmitted ++ (runTrace initWin t).write_buffer =
      acceptedJoin initWin t ∧
    (∀ d : List Nat, (runTrace initWin t).ready = true →
      (write (runTrace initWin t) d).1.write_buffer =
        (runTrace initWin t).write_buffer) := by
  have h := runTrace_inv_sum t initWin (fun hr => absurd hr (by decide))
  refine ⟨h.1, ?_, ?_⟩
  · rw [h.2]
    rfl
  · intro d hr
    by_cases hw : (runTrace initWin t).writerClosed = true
    · simp [write, hr, hw]
    · simp only [Bool.not_eq_true] at hw
      simp [write, hr, hw]

/-- C10 witness: after one buffered write and the connection callback, the
buffer is empty and the transmitted bytes are exactly the accepted payload. -/
theorem c10_gate_witness :
    (runTrace initWin [WinEvent.wr [7], WinEvent.childConnected]).write_buffer = [] ∧
    (runTrace initWin [WinEvent.wr [7], WinEvent.childConnected]).transmitted ++
        (runTrace initWin [WinEvent.wr [7], WinEvent.childConnected]).write_buffer =
      acceptedJoin initWin [WinEvent.wr [7], WinEvent.childConnected] := by
  have h := c10_gate_implies_empty_buffer [WinEvent.wr [7], WinEvent.childConnected]
  exact ⟨h.1 rfl, h.2.1⟩

end PipeIpc
